import Mathlib

/-!
Model of the `samba_conf` Ansible module core (file `library/samba_conf.py`):
the line-oriented parser, the document tree, the transformation engine, the
change detector and the renderer.  Text is modelled as a list of characters;
Python string operations used by the source (`splitlines` with its full set
of line terminators, `strip`, `rstrip`, `startswith`, the two `re.match`
patterns) are reproduced as executable functions below.
-/

set_option autoImplicit false

/-- Text: a Python `str`, as a list of characters. -/
abbrev Str := List Char

/-- ASCII whitespace as recognised by Python `str.strip` and the regex
class used in the source patterns. -/
def isSpaceChar (c : Char) : Bool :=
  c == ' ' || c == '\t' || c == '\n' || c == '\r' ||
  c == Char.ofNat 11 || c == Char.ofNat 12

/-- Python `str.strip()`. -/
def pyStrip (l : Str) : Str :=
  ((l.dropWhile isSpaceChar).reverse.dropWhile isSpaceChar).reverse

/-- Python `str.rstrip()`; used by `_ParseError.__init__` (line 107). -/
def pyRstrip (l : Str) : Str :=
  (l.reverse.dropWhile isSpaceChar).reverse

/-- The line-boundary characters of Python `str.splitlines()`: LF, CR, VT,
FF, FS, GS, RS, NEL, LINE SEPARATOR and PARAGRAPH SEPARATOR.  CRLF counts
as a single boundary; `splitlinesAux` handles that pair. -/
def isLineBreak (c : Char) : Bool :=
  c == '\n' || c == '\r' || c == Char.ofNat 11 || c == Char.ofNat 12 ||
  c == Char.ofNat 28 || c == Char.ofNat 29 || c == Char.ofNat 30 ||
  c == Char.ofNat 133 || c == Char.ofNat 8232 || c == Char.ofNat 8233

/-- Worker for `splitlines`: `acc` holds the characters of the current line
in reverse; `sawCR` records that the previous character was a CR whose line
has just been emitted, so that an LF immediately after it is consumed
silently (CRLF is one boundary).  A line is emitted at each boundary; a
final partial line is emitted only when nonempty, so a trailing terminator
contributes no extra line. -/
def splitlinesAux : Str → Str → Bool → List Str
  | [], acc, _ => if acc = [] then [] else [acc.reverse]
  | c :: rest, acc, sawCR =>
      if c = '\n' then
        if sawCR then splitlinesAux rest acc false
        else acc.reverse :: splitlinesAux rest [] false
      else if c = '\r' then acc.reverse :: splitlinesAux rest [] true
      else if isLineBreak c then acc.reverse :: splitlinesAux rest [] false
      else splitlinesAux rest (c :: acc) false

/-- Python `str.splitlines()`. -/
def splitlines (s : Str) : List Str :=
  splitlinesAux s [] false

/-- Python `sline.startswith(("#", ";"))` (line 250). -/
def startsComment : Str → Bool
  | [] => false
  | c :: _ => c == '#' || c == ';'

/-- The section-header pattern `^\s*\[([^\[\]]+)\]\s*$` (line 253): after
stripping surrounding whitespace the line must be `[`, one or more characters
other than `[` and `]`, then `]`.  Returns the captured name. -/
def pySectionMatch (line : Str) : Option Str :=
  match pyStrip line with
  | '[' :: rest =>
      match rest.getLast? with
      | some ']' =>
          let mid := rest.dropLast
          if mid ≠ [] ∧ mid.all (fun c => c ≠ '[' ∧ c ≠ ']') then some mid
          else none
      | _ => none
  | _ => none

/-- `\s*=` immediately after the (lazy) name group: skip the maximal
whitespace run; succeed only if an `=` follows, returning the remainder. -/
def findEqAfterWs (s : Str) : Option Str :=
  match s.dropWhile isSpaceChar with
  | '=' :: rest => some rest
  | _ => none

/-- The lazy group `(.+?)\s*=` of the option pattern: grow the name one
character at a time (at least one) and close at the first position where
`\s*=` matches the remainder.  Returns the name and the text after `=`. -/
def splitNameEq : Str → Str → Option (Str × Str)
  | [], _ => none
  | c :: rest, acc =>
      match findEqAfterWs rest with
      | some after => some (acc ++ [c], after)
      | none => splitNameEq rest (acc ++ [c])

/-- Backtracking over the greedy leading `^\s*`: try each number of consumed
leading characters, longest first. -/
def tryStarts (line : Str) : List Nat → Option (Str × Str)
  | [] => none
  | a :: restA =>
      match splitNameEq (line.drop a) [] with
      | some (name, after) => some (name, pyStrip after)
      | none => tryStarts line restA

/-- The option-line pattern `^\s*(.+?)\s*=\s*(.*?)\s*$` (line 260) with
Python preference order: the greedy `^\s*` backtracks from the full
whitespace prefix down to zero, the name group is lazy, and the value group
`\s*(.*?)\s*$` amounts to stripping the remainder after `=`. -/
def pyOptionMatch (line : Str) : Option (Str × Str) :=
  let w := (line.takeWhile isSpaceChar).length
  tryStarts line ((List.range (w + 1)).reverse)

example : pyOptionMatch ("prop1 = prop1".toList) =
    some ("prop1".toList, "prop1".toList) := by decide
example : pyOptionMatch ("prop2=prop2".toList) =
    some ("prop2".toList, "prop2".toList) := by decide
example : pyOptionMatch ("  prop5     =      prop5".toList) =
    some ("prop5".toList, "prop5".toList) := by decide
example : pyOptionMatch ("  prop2 =".toList) =
    some ("prop2".toList, ([] : Str)) := by decide
example : pyOptionMatch ("prop1".toList) = none := by decide
example : pySectionMatch ("[share1]".toList) = some ("share1".toList) := by decide
example : pySectionMatch ("[[share1]".toList) = none := by decide
example : splitlines ("a\nb\n".toList) = ["a".toList, "b".toList] := by decide
example : splitlines ("a\nb".toList) = ["a".toList, "b".toList] := by decide
example : splitlines ("\n".toList) = [([] : Str)] := by decide
example : splitlines ([] : Str) = [] := by decide
example : splitlines ("a\r\nb".toList) = ["a".toList, "b".toList] := by decide
example : splitlines ("a\rb".toList) = ["a".toList, "b".toList] := by decide
example : splitlines ([Char.ofNat 11] : Str) = [([] : Str)] := by decide
example : splitlines ([Char.ofNat 11, '\n'] : Str) = [[], []] := by decide

/-! ## Association maps

`_Document._sections` and `_Section._options` are Python dicts whose values
alias objects that live in the owning `_items` list.  They are modelled as
association lists from the name to the index of the aliased object in the
owning sequence.  Assignment to an existing key replaces the value in place
(as a Python dict does); `pop` removes the entry and returns its value. -/

/-- Dict lookup `m[k]` as an `Option`. -/
def assocGet (m : List (Str × Nat)) (k : Str) : Option Nat :=
  match m with
  | [] => none
  | (k2, v) :: rest => if k2 = k then some v else assocGet rest k

/-- Dict assignment `m[k] = v`: replace in place, or append a new entry. -/
def assocSet (m : List (Str × Nat)) (k : Str) (v : Nat) : List (Str × Nat) :=
  match m with
  | [] => [(k, v)]
  | (k2, v2) :: rest =>
      if k2 = k then (k, v) :: rest else (k2, v2) :: assocSet rest k v

/-- Dict `m.pop(k)`: the stored value and the map without the entry, or
`none` (Python `KeyError`) when the key is absent. -/
def assocPop (m : List (Str × Nat)) (k : Str) : Option (Nat × List (Str × Nat)) :=
  match m with
  | [] => none
  | (k2, v2) :: rest =>
      if k2 = k then some (v2, rest)
      else (assocPop rest k).map (fun p => (p.1, (k2, v2) :: p.2))

/-! ## Data model

`_Option`, `_Section`, `_Blank`, `_Comment`, `_Document` from the source.
A `_Section`'s `_items` list only ever receives `_Option` objects (parser
line 264, `_Section.option` line 174), so section items are options here.
Python exceptions are modelled by `Except`; because an exception leaves the
mutated object behind, every fallible mutator returns the state at the point
of the raise inside its error value. -/

/-- Exceptions that escape the container operations. -/
inductive OpErr where
  /-- Python `KeyError` from a dict lookup or `pop`. -/
  | keyError
  /-- Python `AttributeError`, raised by `_Section.__eq__` (line 200),
  which reads the nonexistent attribute `other.items`. -/
  | attributeError
  /-- Python `ValueError` from `list.remove` on a missing element. -/
  | valueError
  /-- A parameter combination rejected by `run_module` validation
  (lines 301-308) before the transformation code runs. -/
  | badArgs
deriving DecidableEq, Repr

/-- `_Option`: a name, a value and a `commented` flag (lines 222-226). -/
structure ConfOption where
  name : Str
  value : Str
  commented : Bool
deriving DecidableEq, Repr

/-- `_Section`: name, `commented` flag, owned option sequence `_items`, and
the `_options` dict mapping an option name to the index of the aliased
option in `items` (lines 154-159). -/
structure ConfSection where
  name : Str
  commented : Bool
  items : List ConfOption
  options : List (Str × Nat)
deriving DecidableEq, Repr

/-- A top-level document item: `_Blank`, `_Comment`, an `_Option` appearing
before any section header (parser line 264 with `prev` still the document),
or a `_Section`. -/
inductive DocItem where
  | blank
  | comment (text : Str)
  | opt (o : ConfOption)
  | sec (s : ConfSection)
deriving DecidableEq, Repr

/-- `_Document`: the owned top-level sequence `_items` and the `_sections`
dict mapping a section name to the index of the aliased section in `items`
(lines 114-117). -/
structure Document where
  items : List DocItem
  sections : List (Str × Nat)
deriving DecidableEq, Repr

/-! ## Container operations -/

/-- `_Section.add` (lines 161-164): append the option, then point the
`_options` entry for its name at it. -/
def ConfSection.addOpt (s : ConfSection) (o : ConfOption) : ConfSection :=
  { s with
    items := s.items ++ [o]
    options := assocSet s.options o.name s.items.length }

/-- `_Section.option(name, create)` (lines 166-175): return the index of the
existing aliased option, or, when `create` holds, append a fresh option with
empty value and register it; `KeyError` when absent and not creating. -/
def ConfSection.optionIdx (s : ConfSection) (name : Str) (create : Bool) :
    Except (OpErr × ConfSection) (Nat × ConfSection) :=
  match assocGet s.options name with
  | some i => .ok (i, s)
  | none =>
      if create then
        let o : ConfOption := ⟨name, [], false⟩
        .ok (s.items.length,
             { s with
               options := assocSet s.options name s.items.length
               items := s.items ++ [o] })
      else .error (.keyError, s)

/-- The `commented` setter of `_Section` (lines 181-185): set the section
flag and broadcast it to every option the `_options` dict currently maps. -/
def ConfSection.setCommented (s : ConfSection) (v : Bool) : ConfSection :=
  { s with
    commented := v
    items := s.options.foldl
      (fun its p =>
        match its.get? p.2 with
        | some o => its.set p.2 { o with commented := v }
        | none => its)
      s.items }

/-- `list.remove(o)` on a section item list: drop the first element equal to
`o` (`_Option.__eq__` compares name, value and flag, which is plain
structural equality here). -/
def removeFirstEq : List ConfOption → ConfOption → Option (List ConfOption)
  | [], _ => none
  | x :: rest, o =>
      if x = o then some rest else (removeFirstEq rest o).map (fun r => x :: r)

/-- `_Section.remove_option` (lines 187-189): pop the dict entry, then
remove the aliased object from `_items`.  A missing name raises `KeyError`
before any mutation. -/
def ConfSection.remove_option (s : ConfSection) (name : Str) :
    Except (OpErr × ConfSection) ConfSection :=
  match assocPop s.options name with
  | none => .error (.keyError, s)
  | some (idx, rest) =>
      match s.items.get? idx with
      | none => .error (.valueError, { s with options := rest })
      | some o =>
          match removeFirstEq s.items o with
          | none => .error (.valueError, { s with options := rest })
          | some items2 => .ok { s with options := rest, items := items2 }

/-- `_Document.add` (lines 119-122): append the item; when it is a section,
point the `_sections` entry for its name at it. -/
def Document.add (d : Document) (it : DocItem) : Document :=
  { items := d.items ++ [it]
    sections :=
      match it with
      | .sec s => assocSet d.sections s.name d.items.length
      | _ => d.sections }

/-- The section aliased at index `i` of the document sequence, if any. -/
def Document.getSecAt (d : Document) (i : Nat) : Option ConfSection :=
  match d.items.get? i with
  | some (.sec s) => some s
  | _ => none

/-- Write back the section aliased at index `i` (attribute mutation through
the alias in Python). -/
def Document.setSecAt (d : Document) (i : Nat) (s : ConfSection) : Document :=
  { d with items := d.items.set i (.sec s) }

/-- Mutate the section aliased at index `i` in place. -/
def Document.modifySec (d : Document) (i : Nat) (f : ConfSection → ConfSection) :
    Document :=
  match d.getSecAt i with
  | some s => d.setSecAt i (f s)
  | none => d

/-- `_Document.section(name, create)` (lines 124-134): return the index of
the aliased section; when creating, register the fresh section, append a
`_Blank` for spacing, then append the section.  `KeyError` when absent and
not creating. -/
def Document.sectionIdx (d : Document) (name : Str) (create : Bool) :
    Except (OpErr × Document) (Nat × Document) :=
  match assocGet d.sections name with
  | some i => .ok (i, d)
  | none =>
      if create then
        let s : ConfSection := ⟨name, false, [], []⟩
        .ok (d.items.length + 1,
             { items := d.items ++ [.blank, .sec s]
               sections := assocSet d.sections name (d.items.length + 1) })
      else .error (.keyError, d)

/-- Whether an optional document item is a `_Section`. -/
def isSecOpt : Option DocItem → Bool
  | some (.sec _) => true
  | _ => false

/-- `self._items.remove(s)` inside `_Document.remove_section`: scan the
sequence; the countdown reaches zero exactly at the aliased section, which
the identity fast path of `PyObject_RichCompareBool` removes.  A different
`_Section` encountered earlier is compared via `_Section.__eq__`, which
evaluates the nonexistent `other.items` and raises `AttributeError`
(line 200); `_Blank`, `_Comment` and `_Option` elements compare unequal via
their `isinstance` checks and are skipped. -/
def removeScanDoc : List DocItem → Nat → Except OpErr (List DocItem)
  | [], _ => .error .valueError
  | _ :: rest, 0 => .ok rest
  | x :: rest, Nat.succ k =>
      match x with
      | .sec _ => .error .attributeError
      | _ => (removeScanDoc rest k).map (fun r => x :: r)

/-- `_Document.remove_section` (lines 139-141): pop the `_sections` entry,
then remove the aliased object from `_items`.  The error value carries the
document as it stands when the exception is raised: after a `KeyError` from
`pop` nothing changed, after an `AttributeError` from the scan the dict
entry is already gone while the sequence still holds the section. -/
def Document.remove_section (d : Document) (name : Str) :
    Except (OpErr × Document) Document :=
  match assocPop d.sections name with
  | none => .error (.keyError, d)
  | some (idx, rest) =>
      match removeScanDoc d.items idx with
      | .error e => .error (e, { items := d.items, sections := rest })
      | .ok items2 => .ok { items := items2, sections := rest }

/-- Set the value of the option at index `j` through the alias
(`.value = value`, line 334). -/
def ConfSection.setOptValue (s : ConfSection) (j : Nat) (v : Str) : ConfSection :=
  match s.items.get? j with
  | some o => { s with items := s.items.set j { o with value := v } }
  | none => s

/-- Set the `commented` flag of the option at index `j` through the alias
(`.commented = True`, line 331). -/
def ConfSection.setOptCommentedAt (s : ConfSection) (j : Nat) (v : Bool) :
    ConfSection :=
  match s.items.get? j with
  | some o => { s with items := s.items.set j { o with commented := v } }
  | none => s

/-! ## Renderer -/

/-- The default `indent` argument `"  "` of the render methods. -/
def defaultIndent : Str := "  ".toList

/-- `_Option.render` (lines 228-232): `name = value` behind two indent
units, with a leading `;` when commented. -/
def ConfOption.render (o : ConfOption) (indent : Str) : Str :=
  if o.commented then
    [';'] ++ indent ++ indent ++ o.name ++ " = ".toList ++ o.value ++ ['\n']
  else
    indent ++ indent ++ o.name ++ " = ".toList ++ o.value ++ ['\n']

/-- `_Section.render` (lines 191-197): the header `[name]` behind one indent
unit (with a leading `;` when commented), then the option lines. -/
def ConfSection.render (s : ConfSection) (indent : Str) : Str :=
  (if s.commented then [';'] ++ indent ++ ['['] ++ s.name ++ [']', '\n']
   else indent ++ ['['] ++ s.name ++ [']', '\n'])
  ++ (s.items.map (fun o => o.render indent)).flatten

/-- Render one document item: `_Blank.render` yields a single newline
(line 204), `_Comment.render` yields the stored text verbatim (line 216). -/
def DocItem.render : DocItem → Str → Str
  | .blank, _ => ['\n']
  | .comment t, _ => t
  | .opt o, indent => o.render indent
  | .sec s, indent => s.render indent

/-- `_Document.stringify` (lines 147-148) with the default indent. -/
def Document.stringify (d : Document) : Str :=
  (d.items.map (fun it => it.render defaultIndent)).flatten

/-! ## Parser -/

/-- `_ParseError` (lines 103-108): message, the offending line after
`rstrip`, and the 1-based line number `lineno + 1`. -/
structure ParseError where
  message : Str
  line : Str
  lineno : Nat
deriving DecidableEq, Repr

/-- Parser state: the document under construction and `prev`, the current
container for option lines — `none` while `prev` is the document itself,
`some i` once `prev` is the section aliased at index `i` of the document
sequence. -/
abbrev PState := Document × Option Nat

/-- One iteration of the `_parse_conf` loop (lines 246-264).  Blank and
comment lines are appended to the document via `d.add`; a section header
appends a fresh section and makes it `prev`; an option line is added to
`prev`. -/
def parseLine (st : PState) (lineno : Nat) (line : Str) :
    Except ParseError PState :=
  let d := st.1
  let prev := st.2
  let sline := pyStrip line
  if sline = [] then
    .ok (d.add .blank, prev)
  else if startsComment sline then
    .ok (d.add (.comment line), prev)
  else if sline.head? = some '[' then
    match pySectionMatch line with
    | none => .error ⟨"Invalid share definition".toList, pyRstrip line, lineno + 1⟩
    | some name =>
        .ok (d.add (.sec ⟨name, false, [], []⟩), some d.items.length)
  else
    match pyOptionMatch line with
    | none => .error ⟨"Invalid syntax".toList, pyRstrip line, lineno + 1⟩
    | some (n, v) =>
        let o : ConfOption := ⟨n, v, false⟩
        match prev with
        | none => .ok (d.add (.opt o), prev)
        | some i => .ok (d.modifySec i (fun s => s.addOpt o), prev)

/-- The enumerated loop of `_parse_conf` over the split lines. -/
def parseGo (st : PState) (lineno : Nat) :
    List Str → Except ParseError PState
  | [] => .ok st
  | l :: rest =>
      match parseLine st lineno l with
      | .error e => .error e
      | .ok st2 => parseGo st2 (lineno + 1) rest

/-- `_parse_conf(text)` (lines 243-265). -/
def parseConf (text : Str) : Except ParseError Document :=
  match parseGo (⟨[], []⟩, none) 0 (splitlines text) with
  | .error e => .error e
  | .ok st => .ok st.1

/-! ## Transformation engine and change detector -/

/-- The `state` module parameter. -/
inductive EditState where
  | present
  | absent
  | commented
deriving DecidableEq, Repr

/-- The transformation block of `run_module` (lines 323-334).  The guards of
the five `if` statements are mutually exclusive, so they are written as one
case split.  `state = present` with a missing option or value is rejected by
the validation at lines 301-302 before this code runs, hence `badArgs`. -/
def applyTransform (conf : Document) (sname : Str) (state : EditState)
    (opt : Option Str) (value : Option Str) :
    Except (OpErr × Document) Document :=
  match state, opt with
  | .absent, none =>
      -- conf.remove_section(section)
      conf.remove_section sname
  | .commented, none =>
      -- conf.section(section).commented = True
      match conf.sectionIdx sname true with
      | .error e => .error e
      | .ok (i, d1) => .ok (d1.modifySec i (fun s => s.setCommented true))
  | .absent, some oname =>
      -- conf.section(section).remove_option(option)
      -- `section` is called with its default create=True
      match conf.sectionIdx sname true with
      | .error e => .error e
      | .ok (i, d1) =>
          match d1.getSecAt i with
          | none => .error (.attributeError, d1)
          | some s =>
              match s.remove_option oname with
              | .error (e, s2) => .error (e, d1.setSecAt i s2)
              | .ok s2 => .ok (d1.setSecAt i s2)
  | .commented, some oname =>
      -- conf.option(section, option).commented = True
      match conf.sectionIdx sname true with
      | .error e => .error e
      | .ok (i, d1) =>
          match d1.getSecAt i with
          | none => .error (.attributeError, d1)
          | some s =>
              match s.optionIdx oname true with
              | .error (e, s2) => .error (e, d1.setSecAt i s2)
              | .ok (j, s2) => .ok (d1.setSecAt i (s2.setOptCommentedAt j true))
  | .present, _ =>
      -- conf.section(section).option(option).value = value
      match opt, value with
      | some oname, some v =>
          match conf.sectionIdx sname true with
          | .error e => .error e
          | .ok (i, d1) =>
              match d1.getSecAt i with
              | none => .error (.attributeError, d1)
              | some s =>
                  match s.optionIdx oname true with
                  | .error (e, s2) => .error (e, d1.setSecAt i s2)
                  | .ok (j, s2) => .ok (d1.setSecAt i (s2.setOptValue j v))
      | _, _ => .error (.badArgs, conf)

/-- The element loop of CPython list comparison applied to `self._items`
against itself: at every index the two operands are the same object, so the
identity fast path of `PyObject_RichCompareBool` answers true and no
`__eq__` method ever runs; the loop just walks to the end. -/
def documentSelfEqScan : List DocItem → Bool
  | [] => true
  | _ :: rest => documentSelfEqScan rest

/-- `_Document.__eq__` (lines 150-151):
`isinstance(other, _Document) and self._items == self._items`.  The right
operand is `self._items` on both sides — not `other._items` — so the list
comparison is a self-comparison (see `documentSelfEqScan`); `other`, being a
`_Document`, passes the `isinstance` check but is otherwise ignored. -/
def documentPyEq (self _other : Document) : Bool :=
  documentSelfEqScan self.items

/-- `changed = conf != orig` (line 338): Python derives `__ne__` by negating
`_Document.__eq__`. -/
def runChanged (conf orig : Document) : Bool :=
  !(documentPyEq conf orig)

/-- Name-based lookup of an option, following the dict aliases the way
`_Document.option(section, name, create=False)` would: the `_sections`
entry, then the `_options` entry of that section. -/
def docLookupOption (d : Document) (sname oname : Str) : Option ConfOption :=
  match assocGet d.sections sname with
  | none => none
  | some i =>
      match d.getSecAt i with
      | none => none
      | some s =>
          match assocGet s.options oname with
          | none => none
          | some j => s.items.get? j

/-! ## Helper lemmas -/

instance {ε α : Type} [DecidableEq ε] [DecidableEq α] :
    DecidableEq (Except ε α) := fun x y =>
  match x, y with
  | .ok a, .ok b => decidable_of_iff (a = b) (by simp)
  | .error a, .error b => decidable_of_iff (a = b) (by simp)
  | .ok _, .error _ => isFalse (by simp)
  | .error _, .ok _ => isFalse (by simp)

theorem assocGet_set_self (m : List (Str × Nat)) (k : Str) (v : Nat) :
    assocGet (assocSet m k v) k = some v := by
  induction m with
  | nil => simp [assocGet, assocSet]
  | cons p rest ih =>
      obtain ⟨k2, v2⟩ := p
      by_cases h : k2 = k
      · simp [assocGet, assocSet, h]
      · simp [assocGet, assocSet, h, ih]

theorem listGetSomeLt {α : Type} {l : List α} {i : Nat} {a : α}
    (h : l.get? i = some a) : i < l.length := by
  induction l generalizing i with
  | nil => simp [List.get?] at h
  | cons x rest ih =>
      cases i with
      | zero => simp
      | succ j =>
          simp only [List.get?] at h
          exact Nat.succ_lt_succ (ih h)

theorem listGetSetSelf {α : Type} (l : List α) (i : Nat) (a : α)
    (h : i < l.length) : (l.set i a).get? i = some a := by
  induction l generalizing i with
  | nil => simp at h
  | cons x rest ih =>
      cases i with
      | zero => simp [List.set]
      | succ j =>
          simp only [List.set, List.get?]
          exact ih j (Nat.lt_of_succ_lt_succ h)

/-- The blank branch of `_parse_conf` (lines 248-249): an all-whitespace
line appends a `_Blank` to the document, whatever the current section is. -/
theorem parseLine_blank_eq (st : PState) (n : Nat) (line : Str)
    (h : pyStrip line = []) :
    parseLine st n line = .ok (st.1.add .blank, st.2) := by
  simp [parseLine, h]

/-- The comment branch of `_parse_conf` (lines 250-251): a line whose
stripped form starts with `#` or `;` appends a `_Comment` holding the
original untrimmed line to the document, whatever the current section is. -/
theorem parseLine_comment_eq (st : PState) (n : Nat) (line : Str)
    (h : startsComment (pyStrip line) = true) :
    parseLine st n line = .ok (st.1.add (.comment line), st.2) := by
  have hne : pyStrip line ≠ [] := by
    intro he
    rw [he] at h
    simp [startsComment] at h
  simp [parseLine, hne, h]

theorem splitlinesAux_no_break (s : Str) :
    ∀ (acc : Str) (sawCR : Bool), (∀ c ∈ acc, isLineBreak c = false) →
      ∀ l ∈ splitlinesAux s acc sawCR, ∀ c ∈ l, isLineBreak c = false := by
  induction s with
  | nil =>
      intro acc sawCR hacc l hl c hc
      by_cases he : acc = []
      · simp [splitlinesAux, he] at hl
      · simp [splitlinesAux, he] at hl
        subst hl
        exact hacc c (List.mem_reverse.mp hc)
  | cons d rest ih =>
      intro acc sawCR hacc l hl c hc
      by_cases hdn : d = '\n'
      · subst hdn
        cases sawCR with
        | true =>
            exact ih acc false hacc l hl c hc
        | false =>
            rcases List.mem_cons.mp hl with hl2 | hl2
            · subst hl2
              exact hacc c (List.mem_reverse.mp hc)
            · exact ih [] false (by simp) l hl2 c hc
      · by_cases hdr : d = '\r'
        · subst hdr
          rcases List.mem_cons.mp hl with hl2 | hl2
          · subst hl2
            exact hacc c (List.mem_reverse.mp hc)
          · exact ih [] true (by simp) l hl2 c hc
        · by_cases hdb : isLineBreak d = true
          · rw [splitlinesAux, if_neg hdn, if_neg hdr, if_pos hdb] at hl
            rcases List.mem_cons.mp hl with hl2 | hl2
            · subst hl2
              exact hacc c (List.mem_reverse.mp hc)
            · exact ih [] false (by simp) l hl2 c hc
          · rw [splitlinesAux, if_neg hdn, if_neg hdr, if_neg hdb] at hl
            refine ih (d :: acc) false ?_ l hl c hc
            intro x hx
            rcases List.mem_cons.mp hx with hx | hx
            · subst hx
              cases hb : isLineBreak x
              · rfl
              · exact absurd hb hdb
            · exact hacc x hx

/-- No line produced by `splitlines` contains an `LF`. -/
theorem splitlines_no_newline (text l : Str) (hl : l ∈ splitlines text) :
    '\n' ∉ l := by
  intro hmem
  have h := splitlinesAux_no_break text [] false (by simp) l hl '\n' hmem
  have h2 : isLineBreak '\n' = true := by decide
  rw [h2] at h
  exact Bool.noConfusion h

theorem splitlines_replicate_newline (n : Nat) :
    splitlines (List.replicate n '\n') = List.replicate n [] := by
  induction n with
  | zero => simp [splitlines, splitlinesAux]
  | succ k ih =>
      rw [List.replicate_succ, List.replicate_succ]
      show splitlinesAux ('\n' :: List.replicate k '\n') [] false =
        [] :: List.replicate k []
      rw [splitlinesAux, if_pos rfl, if_neg (by simp)]
      simpa [splitlines] using ih

theorem splitlinesAux_append_newline (s : Str) :
    ∀ (acc : Str) (sawCR : Bool), s ≠ [] →
      (∀ b, s.getLast? = some b → isLineBreak b = false) →
      splitlinesAux (s ++ ['\n']) acc sawCR = splitlinesAux s acc sawCR := by
  induction s with
  | nil => intro acc sawCR h _; exact absurd rfl h
  | cons d rest ih =>
      intro acc sawCR _ hlast
      by_cases hr : rest = []
      · subst hr
        have hd : isLineBreak d = false := hlast d rfl
        have hdn : d ≠ '\n' := by
          intro he; rw [he] at hd; simp [isLineBreak] at hd
        have hdr : d ≠ '\r' := by
          intro he; rw [he] at hd; simp [isLineBreak] at hd
        show splitlinesAux (d :: ['\n']) acc sawCR = splitlinesAux [d] acc sawCR
        simp [splitlinesAux, hdn, hdr, hd]
      · have hlast2 : ∀ b, rest.getLast? = some b → isLineBreak b = false := by
          intro b hb
          refine hlast b ?_
          cases rest with
          | nil => exact absurd rfl hr
          | cons e tail => rw [List.getLast?_cons_cons]; exact hb
        by_cases hdn : d = '\n'
        · subst hdn
          cases sawCR with
          | true =>
              show splitlinesAux (rest ++ ['\n']) acc false =
                splitlinesAux rest acc false
              exact ih acc false hr hlast2
          | false =>
              show acc.reverse :: splitlinesAux (rest ++ ['\n']) [] false =
                acc.reverse :: splitlinesAux rest [] false
              rw [ih [] false hr hlast2]
        · by_cases hdr : d = '\r'
          · subst hdr
            show acc.reverse :: splitlinesAux (rest ++ ['\n']) [] true =
              acc.reverse :: splitlinesAux rest [] true
            rw [ih [] true hr hlast2]
          · by_cases hdb : isLineBreak d = true
            · simp only [List.cons_append, splitlinesAux, if_neg hdn,
                if_neg hdr, if_pos hdb]
              exact congrArg (fun x => acc.reverse :: x) (ih [] false hr hlast2)
            · simp only [List.cons_append, splitlinesAux, if_neg hdn,
                if_neg hdr, if_neg hdb]
              exact ih (d :: acc) false hr hlast2

/-- Appending a final `LF` to a nonempty text whose last character is not a
line terminator leaves the line split unchanged. -/
theorem splitlines_append_newline (t : Str) (hne : t ≠ [])
    (hlast : ∀ b, t.getLast? = some b → isLineBreak b = false) :
    splitlines (t ++ ['\n']) = splitlines t :=
  splitlinesAux_append_newline t [] false hne hlast

theorem parseGo_all_blank (ls : List Str) :
    ∀ (d : Document) (prev : Option Nat) (n : Nat), (∀ l ∈ ls, l = []) →
      parseGo (d, prev) n ls =
        .ok (⟨d.items ++ List.replicate ls.length .blank, d.sections⟩, prev) := by
  induction ls with
  | nil => intro d prev n _; simp [parseGo]
  | cons l rest ih =>
      intro d prev n hall
      have hl : l = [] := hall l (List.mem_cons_self l rest)
      subst hl
      have hline : parseLine (d, prev) n [] = .ok (d.add .blank, prev) :=
        parseLine_blank_eq (d, prev) n [] rfl
      rw [parseGo, hline]
      have hrest : ∀ l2 ∈ rest, l2 = [] := fun l2 h2 => hall l2 (List.mem_cons_of_mem _ h2)
      dsimp only
      rw [ih (d.add .blank) prev (n + 1) hrest]
      simp [Document.add, List.replicate_succ]

theorem stringify_replicate_blank (n : Nat) :
    Document.stringify ⟨List.replicate n .blank, []⟩ = List.replicate n '\n' := by
  induction n with
  | zero => simp [Document.stringify]
  | succ k ih =>
      rw [List.replicate_succ, List.replicate_succ]
      show (((DocItem.blank :: List.replicate k .blank).map
        (fun it => it.render defaultIndent)).flatten) = '\n' :: List.replicate k '\n'
      rw [List.map_cons, List.flatten_cons]
      have : DocItem.render .blank defaultIndent = ['\n'] := rfl
      rw [this]
      simpa [Document.stringify] using ih

theorem removeScanDoc_ok (items : List DocItem) :
    ∀ (k : Nat), k < items.length →
      (∀ j, j < k → isSecOpt (items.get? j) = false) →
      removeScanDoc items k = .ok (items.eraseIdx k) := by
  induction items with
  | nil => intro k hk _; simp at hk
  | cons x rest ih =>
      intro k hk hsec
      cases k with
      | zero => simp [removeScanDoc, List.eraseIdx]
      | succ m =>
          have hx : isSecOpt (some x) = false := hsec 0 (Nat.succ_pos m)
          have hrec : removeScanDoc rest m = .ok (rest.eraseIdx m) := by
            refine ih m (Nat.lt_of_succ_lt_succ hk) ?_
            intro j hj
            exact hsec (j + 1) (Nat.succ_lt_succ hj)
          cases x with
          | sec s => simp [isSecOpt] at hx
          | blank =>
              show (removeScanDoc rest m).map (fun r => DocItem.blank :: r) =
                .ok ((DocItem.blank :: rest).eraseIdx (m + 1))
              rw [hrec]; rfl
          | comment t =>
              show (removeScanDoc rest m).map (fun r => DocItem.comment t :: r) =
                .ok ((DocItem.comment t :: rest).eraseIdx (m + 1))
              rw [hrec]; rfl
          | opt o =>
              show (removeScanDoc rest m).map (fun r => DocItem.opt o :: r) =
                .ok ((DocItem.opt o :: rest).eraseIdx (m + 1))
              rw [hrec]; rfl

theorem removeScanDoc_err (items : List DocItem) :
    ∀ (k : Nat), (∃ j, j < k ∧ isSecOpt (items.get? j) = true) →
      removeScanDoc items k = .error .attributeError := by
  induction items with
  | nil =>
      intro k hex
      obtain ⟨j, _, hj2⟩ := hex
      simp [List.get?, isSecOpt] at hj2
  | cons x rest ih =>
      intro k hex
      obtain ⟨j, hj1, hj2⟩ := hex
      cases k with
      | zero => exact absurd hj1 (Nat.not_lt_zero j)
      | succ m =>
          cases x with
          | sec s => rfl
          | blank =>
              cases j with
              | zero => simp [List.get?, isSecOpt] at hj2
              | succ i =>
                  show (removeScanDoc rest m).map (fun r => DocItem.blank :: r) =
                    .error .attributeError
                  rw [ih m ⟨i, Nat.lt_of_succ_lt_succ hj1, hj2⟩]
                  rfl
          | comment t =>
              cases j with
              | zero => simp [List.get?, isSecOpt] at hj2
              | succ i =>
                  show (removeScanDoc rest m).map (fun r => DocItem.comment t :: r) =
                    .error .attributeError
                  rw [ih m ⟨i, Nat.lt_of_succ_lt_succ hj1, hj2⟩]
                  rfl
          | opt o =>
              cases j with
              | zero => simp [List.get?, isSecOpt] at hj2
              | succ i =>
                  show (removeScanDoc rest m).map (fun r => DocItem.opt o :: r) =
                    .error .attributeError
                  rw [ih m ⟨i, Nat.lt_of_succ_lt_succ hj1, hj2⟩]
                  rfl

theorem pySectionMatch_strip (line name : Str)
    (h : pySectionMatch line = some name) :
    ∃ r, pyStrip line = '[' :: r := by
  unfold pySectionMatch at h
  split at h
  · next r heq => exact ⟨r, heq⟩
  · exact absurd h (by simp)

/-! ## Claims -/

/-- C1: the change detector is claimed to perform a genuine deep structural
comparison, making `changed` true for every structure-modifying edit.  In
the code, `_Document.__eq__` (line 151) compares `self._items` with
`self._items` instead of `other._items`, so `changed = conf != orig`
(line 338) is false even when the transformation did modify the tree: here
`present(global, workgroup, ACME)` changes the stored value, the documents
differ structurally, yet the computed `changed` flag is false. -/
theorem C1_changed_always_false :
    parseConf ("[global]\nworkgroup = W\n".toList) =
      .ok ⟨[.sec ⟨"global".toList, false,
              [⟨"workgroup".toList, "W".toList, false⟩],
              [("workgroup".toList, 0)]⟩],
           [("global".toList, 0)]⟩ ∧
    applyTransform
      ⟨[.sec ⟨"global".toList, false,
          [⟨"workgroup".toList, "W".toList, false⟩],
          [("workgroup".toList, 0)]⟩],
       [("global".toList, 0)]⟩
      ("global".toList) .present (some ("workgroup".toList))
      (some ("ACME".toList)) =
      .ok ⟨[.sec ⟨"global".toList, false,
              [⟨"workgroup".toList, "ACME".toList, false⟩],
              [("workgroup".toList, 0)]⟩],
           [("global".toList, 0)]⟩ ∧
    (⟨[.sec ⟨"global".toList, false,
         [⟨"workgroup".toList, "ACME".toList, false⟩],
         [("workgroup".toList, 0)]⟩],
      [("global".toList, 0)]⟩ : Document) ≠
      ⟨[.sec ⟨"global".toList, false,
          [⟨"workgroup".toList, "W".toList, false⟩],
          [("workgroup".toList, 0)]⟩],
       [("global".toList, 0)]⟩ ∧
    runChanged
      ⟨[.sec ⟨"global".toList, false,
          [⟨"workgroup".toList, "ACME".toList, false⟩],
          [("workgroup".toList, 0)]⟩],
       [("global".toList, 0)]⟩
      ⟨[.sec ⟨"global".toList, false,
          [⟨"workgroup".toList, "W".toList, false⟩],
          [("workgroup".toList, 0)]⟩],
       [("global".toList, 0)]⟩ = false := by
  refine ⟨by decide, by decide, by decide, by decide⟩

/-- C2 counterexample: render after parse is not the identity.  The line
`a=b` parses, but the renderer re-emits it as `    a = b` with a trailing
newline, so the round trip is not byte-for-byte. -/
theorem C2_counterexample :
    parseConf ("a=b".toList) =
      .ok ⟨[.opt ⟨"a".toList, "b".toList, false⟩], []⟩ ∧
    Document.stringify ⟨[.opt ⟨"a".toList, "b".toList, false⟩], []⟩ =
      "    a = b\n".toList ∧
    ("    a = b\n".toList : Str) ≠ "a=b".toList := by
  refine ⟨by decide, by decide, by decide⟩

/-- C2 amended: the byte-for-byte round trip is not universal — the
counterexample shows an option line re-emitted in canonical indented form —
but it does hold for every text consisting solely of newline characters:
such a text parses to a document of blanks whose rendering reproduces the
input exactly. -/
theorem C2_roundtrip_blank_lines (t : Str) (h : ∀ c ∈ t, c = '\n') :
    (parseConf t).map Document.stringify = .ok t := by
  have ht : t = List.replicate t.length '\n' := List.eq_replicate_of_mem h
  rw [ht]
  unfold parseConf
  rw [splitlines_replicate_newline]
  rw [parseGo_all_blank (List.replicate t.length []) ⟨[], []⟩ none 0 (by simp)]
  simp only [List.length_replicate, List.nil_append]
  show Except.ok (Document.stringify ⟨List.replicate t.length .blank, []⟩) = _
  rw [stringify_replicate_blank]

/-- C2 witness: the round trip on the two-blank-line text. -/
theorem C2_roundtrip_blank_lines_witness :
    (parseConf ("\n\n".toList)).map Document.stringify = .ok ("\n\n".toList) :=
  C2_roundtrip_blank_lines ("\n\n".toList) (by decide)

/-- C3 counterexample: with section `s` open, the comment line `# c` is
appended to the Document's top-level sequence, not to the open section:
`_parse_conf` calls `d.add(...)` for blank and comment lines regardless of
`prev` (lines 248-251).  The parsed document holds the comment as its second
top-level item while section `s` has no items at all. -/
theorem C3_counterexample :
    parseConf ("[s]\n# c\n".toList) =
      .ok ⟨[.sec ⟨"s".toList, false, [], []⟩, .comment ("# c".toList)],
           [("s".toList, 0)]⟩ ∧
    Document.getSecAt
      ⟨[.sec ⟨"s".toList, false, [], []⟩, .comment ("# c".toList)],
       [("s".toList, 0)]⟩ 0 = some ⟨"s".toList, false, [], []⟩ := by
  refine ⟨by decide, by decide⟩

/-- C3 amended: blank and comment lines are always appended to the
Document's own top-level sequence — whether or not a section is currently
open — and the current container for option lines is left unchanged; only
option lines go to the currently open section. -/
theorem C3_blank_comment_to_document (st : PState) (n : Nat) (line : Str) :
    (pyStrip line = [] → parseLine st n line = .ok (st.1.add .blank, st.2)) ∧
    (startsComment (pyStrip line) = true →
      parseLine st n line = .ok (st.1.add (.comment line), st.2)) :=
  ⟨fun h => parseLine_blank_eq st n line h,
   fun h => parseLine_comment_eq st n line h⟩

/-- C3 witness: a blank line and a comment line fed to a parser state whose
current container is the open section at index 0 both land in the document
sequence. -/
theorem C3_blank_comment_to_document_witness :
    parseLine (⟨[.sec ⟨"s".toList, false, [], []⟩], [("s".toList, 0)]⟩, some 0)
        1 [] =
      .ok ((⟨[.sec ⟨"s".toList, false, [], []⟩],
             [("s".toList, 0)]⟩ : Document).add .blank, some 0) ∧
    parseLine (⟨[.sec ⟨"s".toList, false, [], []⟩], [("s".toList, 0)]⟩, some 0)
        1 ("# c".toList) =
      .ok ((⟨[.sec ⟨"s".toList, false, [], []⟩],
             [("s".toList, 0)]⟩ : Document).add (.comment ("# c".toList)),
           some 0) :=
  ⟨(C3_blank_comment_to_document
      (⟨[.sec ⟨"s".toList, false, [], []⟩], [("s".toList, 0)]⟩, some 0)
      1 []).1 rfl,
   (C3_blank_comment_to_document
      (⟨[.sec ⟨"s".toList, false, [], []⟩], [("s".toList, 0)]⟩, some 0)
      1 ("# c".toList)).2 (by decide)⟩

/-- C5: removing an option of a section that does not exist is supposed to
abort without partial mutation.  The code runs
`conf.section(section).remove_option(option)` (line 329) where `section` is
called with its default `create=True`, so on an empty document the section
`s` (preceded by a spacing `_Blank`) is first created and registered, and
only then does `remove_option` raise `KeyError` — the newly created empty
section survives in the document. -/
theorem C5_absent_option_creates_section :
    applyTransform ⟨[], []⟩ ("s".toList) .absent (some ("o".toList)) none =
      .error (.keyError,
        ⟨[.blank, .sec ⟨"s".toList, false, [], []⟩], [("s".toList, 1)]⟩) ∧
    (⟨[.blank, .sec ⟨"s".toList, false, [], []⟩],
      [("s".toList, 1)]⟩ : Document) ≠ ⟨[], []⟩ := by
  refine ⟨by decide, by decide⟩

/-- C4 counterexample: removing section `s` (state absent, no option) from a
document parsed from a blank line followed by the section leaves the
preceding spacing `_Blank` in the sequence: `remove_section` (lines 139-141)
removes only the `_Section` object, so the rendered output still contains
the blank-line separator, contrary to the claim. -/
theorem C4_counterexample :
    parseConf ("\n[s]\na = b\n".toList) =
      .ok ⟨[.blank, .sec ⟨"s".toList, false, [⟨"a".toList, "b".toList, false⟩],
              [("a".toList, 0)]⟩],
           [("s".toList, 1)]⟩ ∧
    applyTransform
      ⟨[.blank, .sec ⟨"s".toList, false, [⟨"a".toList, "b".toList, false⟩],
          [("a".toList, 0)]⟩],
       [("s".toList, 1)]⟩ ("s".toList) .absent none none =
      .ok ⟨[.blank], []⟩ ∧
    Document.stringify ⟨[.blank], []⟩ = ['\n'] := by
  refine ⟨by decide, by decide, by decide⟩

/-- C4 amended: `remove_section` drops the map entry and the sequence entry
together only when no other `_Section` object precedes the target in the
top-level sequence; in that case the result is exactly the original
sequence with the target section erased — every other item, including a
preceding blank-line separator, is retained.  When another section does
precede the target, the `list.remove` scan compares it to the target via
the broken `_Section.__eq__` and raises `AttributeError` after the map
entry has already been popped, leaving a partial removal. -/
theorem C4_remove_section_characterised (d : Document) (name : Str)
    (idx : Nat) (rest : List (Str × Nat))
    (hpop : assocPop d.sections name = some (idx, rest))
    (hlt : idx < d.items.length) :
    ((∀ j, j < idx → isSecOpt (d.items.get? j) = false) →
        d.remove_section name = .ok ⟨d.items.eraseIdx idx, rest⟩) ∧
    ((∃ j, j < idx ∧ isSecOpt (d.items.get? j) = true) →
        d.remove_section name =
          .error (.attributeError, ⟨d.items, rest⟩)) := by
  constructor
  · intro hns
    unfold Document.remove_section
    rw [hpop]
    dsimp only
    rw [removeScanDoc_ok d.items idx hlt hns]
  · intro hex
    unfold Document.remove_section
    rw [hpop]
    dsimp only
    rw [removeScanDoc_err d.items idx hex]

/-- C4 witness: on `⟨blank, [s]⟩` the removal succeeds and erases exactly
the section, keeping the blank; on `⟨[a], [b]⟩` removing `b` hits the
broken comparison with the preceding section `a` and fails with
`AttributeError` after the map entry for `b` is gone. -/
theorem C4_remove_section_characterised_witness :
    Document.remove_section
      ⟨[.blank, .sec ⟨"s".toList, false, [⟨"a".toList, "b".toList, false⟩],
          [("a".toList, 0)]⟩],
       [("s".toList, 1)]⟩ ("s".toList) = .ok ⟨[.blank], []⟩ ∧
    Document.remove_section
      ⟨[.sec ⟨"a".toList, false, [], []⟩, .sec ⟨"b".toList, false, [], []⟩],
       [("a".toList, 0), ("b".toList, 1)]⟩ ("b".toList) =
      .error (.attributeError,
        ⟨[.sec ⟨"a".toList, false, [], []⟩, .sec ⟨"b".toList, false, [], []⟩],
         [("a".toList, 0)]⟩) :=
  ⟨(C4_remove_section_characterised
      ⟨[.blank, .sec ⟨"s".toList, false, [⟨"a".toList, "b".toList, false⟩],
          [("a".toList, 0)]⟩],
       [("s".toList, 1)]⟩ ("s".toList) 1 [] (by decide) (by decide)).1
      (by decide),
   (C4_remove_section_characterised
      ⟨[.sec ⟨"a".toList, false, [], []⟩, .sec ⟨"b".toList, false, [], []⟩],
       [("a".toList, 0), ("b".toList, 1)]⟩ ("b".toList) 1 [("a".toList, 0)]
      (by decide) (by decide)).2 ⟨0, by decide, by decide⟩⟩

/-- C6 counterexample: starting from `[s]` with active option `a = 1`,
commenting the option and then applying `present(s, a, 2)` updates the
value but leaves the option commented: line 334 assigns only `.value` and
never touches the `commented` flag, so the option renders as
`;    a = 2`, not as an active line. -/
theorem C6_counterexample :
    parseConf ("[s]\na = 1\n".toList) =
      .ok ⟨[.sec ⟨"s".toList, false, [⟨"a".toList, "1".toList, false⟩],
              [("a".toList, 0)]⟩], [("s".toList, 0)]⟩ ∧
    applyTransform
      ⟨[.sec ⟨"s".toList, false, [⟨"a".toList, "1".toList, false⟩],
          [("a".toList, 0)]⟩], [("s".toList, 0)]⟩
      ("s".toList) .commented (some ("a".toList)) none =
      .ok ⟨[.sec ⟨"s".toList, false, [⟨"a".toList, "1".toList, true⟩],
              [("a".toList, 0)]⟩], [("s".toList, 0)]⟩ ∧
    applyTransform
      ⟨[.sec ⟨"s".toList, false, [⟨"a".toList, "1".toList, true⟩],
          [("a".toList, 0)]⟩], [("s".toList, 0)]⟩
      ("s".toList) .present (some ("a".toList)) (some ("2".toList)) =
      .ok ⟨[.sec ⟨"s".toList, false, [⟨"a".toList, "2".toList, true⟩],
              [("a".toList, 0)]⟩], [("s".toList, 0)]⟩ ∧
    docLookupOption
      ⟨[.sec ⟨"s".toList, false, [⟨"a".toList, "2".toList, true⟩],
          [("a".toList, 0)]⟩], [("s".toList, 0)]⟩
      ("s".toList) ("a".toList) = some ⟨"a".toList, "2".toList, true⟩ := by
  refine ⟨by decide, by decide, by decide, by decide⟩

/-- C6 amended: applying `present` to an existing option sets its value and
preserves — rather than clears — every other attribute: afterwards the
option reachable by name has the same name and `commented` flag as before
and the new value. -/
theorem C6_present_preserves_commented (d : Document) (sname oname v : Str)
    (o0 : ConfOption) (h : docLookupOption d sname oname = some o0) :
    (applyTransform d sname .present (some oname) (some v)).map
      (fun d2 => docLookupOption d2 sname oname) =
      .ok (some { o0 with value := v }) := by
  unfold docLookupOption at h
  cases ha : assocGet d.sections sname with
  | none => rw [ha] at h; simp at h
  | some i =>
  rw [ha] at h
  dsimp only at h
  cases hs : d.getSecAt i with
  | none => rw [hs] at h; simp at h
  | some s =>
  rw [hs] at h
  dsimp only at h
  cases hj : assocGet s.options oname with
  | none => rw [hj] at h; simp at h
  | some j =>
  rw [hj] at h
  dsimp only at h
  have hji : j < s.items.length := listGetSomeLt h
  have hgi : d.items.get? i = some (.sec s) := by
    unfold Document.getSecAt at hs
    cases hg : d.items.get? i with
    | none => rw [hg] at hs; simp at hs
    | some it =>
        rw [hg] at hs
        cases it with
        | sec s2 => dsimp only at hs; rw [Option.some.injEq] at hs; rw [hs]
        | blank => simp at hs
        | comment t => simp at hs
        | opt o => simp at hs
  have hii : i < d.items.length := listGetSomeLt hgi
  have happ : applyTransform d sname .present (some oname) (some v) =
      .ok (d.setSecAt i (s.setOptValue j v)) := by
    unfold applyTransform
    dsimp only
    unfold Document.sectionIdx
    rw [ha]
    dsimp only
    rw [hs]
    dsimp only
    unfold ConfSection.optionIdx
    rw [hj]
  rw [happ]
  unfold Except.map
  dsimp only
  unfold docLookupOption
  have hsec2 : (d.setSecAt i (s.setOptValue j v)).sections = d.sections := rfl
  rw [hsec2, ha]
  dsimp only
  have hgets : (d.setSecAt i (s.setOptValue j v)).getSecAt i =
      some (s.setOptValue j v) := by
    unfold Document.getSecAt Document.setSecAt
    dsimp only
    rw [listGetSetSelf d.items i (.sec (s.setOptValue j v)) hii]
  rw [hgets]
  dsimp only
  have hopts : (s.setOptValue j v).options = s.options := by
    unfold ConfSection.setOptValue
    rw [h]
  rw [hopts, hj]
  dsimp only
  have hitem : (s.setOptValue j v).items.get? j = some { o0 with value := v } := by
    unfold ConfSection.setOptValue
    rw [h]
    dsimp only
    exact listGetSetSelf s.items j { o0 with value := v } hji
  rw [hitem]

/-- C6 witness: `present(s, a, 2)` on a document whose option `a` is
commented with value `1` yields the option with value `2` and the
`commented` flag still set. -/
theorem C6_present_preserves_commented_witness :
    (applyTransform
        ⟨[.sec ⟨"s".toList, false, [⟨"a".toList, "1".toList, true⟩],
            [("a".toList, 0)]⟩], [("s".toList, 0)]⟩
        ("s".toList) .present (some ("a".toList)) (some ("2".toList))).map
      (fun d2 => docLookupOption d2 ("s".toList) ("a".toList)) =
      .ok (some ⟨"a".toList, "2".toList, true⟩) :=
  C6_present_preserves_commented
    ⟨[.sec ⟨"s".toList, false, [⟨"a".toList, "1".toList, true⟩],
        [("a".toList, 0)]⟩], [("s".toList, 0)]⟩
    ("s".toList) ("a".toList) ("2".toList)
    ⟨"a".toList, "1".toList, true⟩ (by decide)

/-- C7 counterexample: parsing two `[s]` headers does not fetch the
existing section — `_parse_conf` constructs a fresh `_Section` for every
header (line 256) and `d.add` repoints the name map at it — so the document
ends with two distinct `_Section` objects, the map resolves `s` to the
second one, and the option `a` recorded under the first header is no longer
reachable by name-based lookup. -/
theorem C7_counterexample :
    parseConf ("[s]\na = 1\n[s]\nb = 2\n".toList) =
      .ok ⟨[.sec ⟨"s".toList, false, [⟨"a".toList, "1".toList, false⟩],
              [("a".toList, 0)]⟩,
            .sec ⟨"s".toList, false, [⟨"b".toList, "2".toList, false⟩],
              [("b".toList, 0)]⟩],
           [("s".toList, 1)]⟩ ∧
    docLookupOption
      ⟨[.sec ⟨"s".toList, false, [⟨"a".toList, "1".toList, false⟩],
          [("a".toList, 0)]⟩,
        .sec ⟨"s".toList, false, [⟨"b".toList, "2".toList, false⟩],
          [("b".toList, 0)]⟩],
       [("s".toList, 1)]⟩ ("s".toList) ("a".toList) = none ∧
    docLookupOption
      ⟨[.sec ⟨"s".toList, false, [⟨"a".toList, "1".toList, false⟩],
          [("a".toList, 0)]⟩,
        .sec ⟨"s".toList, false, [⟨"b".toList, "2".toList, false⟩],
          [("b".toList, 0)]⟩],
       [("s".toList, 1)]⟩ ("s".toList) ("b".toList) =
      some ⟨"b".toList, "2".toList, false⟩ := by
  refine ⟨by decide, by decide, by decide⟩

/-- C7 amended: every line matching the section-header grammar appends a
freshly created empty `_Section` to the document sequence — whether or not
a section of that name already exists — and repoints the `_sections` map
entry for that name at the new object, which becomes the current container;
options under earlier same-named headers stay in the earlier object and are
no longer reachable through the map. -/
theorem C7_header_always_creates (st : PState) (n : Nat) (line name : Str)
    (h : pySectionMatch line = some name) :
    parseLine st n line =
      .ok (st.1.add (.sec ⟨name, false, [], []⟩), some st.1.items.length) ∧
    assocGet (st.1.add (.sec ⟨name, false, [], []⟩)).sections name =
      some st.1.items.length := by
  obtain ⟨r, hr⟩ := pySectionMatch_strip line name h
  constructor
  · have hne : pyStrip line ≠ [] := by rw [hr]; simp
    have hcm : startsComment (pyStrip line) = false := by
      rw [hr]; rfl
    have hhd : (pyStrip line).head? = some '[' := by rw [hr]; rfl
    simp [parseLine, hne, hcm, hhd, h]
  · show assocGet (assocSet st.1.sections name st.1.items.length) name = _
    exact assocGet_set_self st.1.sections name st.1.items.length

/-- C7 witness: feeding the header `[s]` to a state that already has a
section `s` at index 0 appends a second empty section and repoints the map
at index 1. -/
theorem C7_header_always_creates_witness :
    parseLine
      (⟨[.sec ⟨"s".toList, false, [⟨"a".toList, "1".toList, false⟩],
           [("a".toList, 0)]⟩], [("s".toList, 0)]⟩, some 0)
      2 ("[s]".toList) =
      .ok ((⟨[.sec ⟨"s".toList, false, [⟨"a".toList, "1".toList, false⟩],
               [("a".toList, 0)]⟩],
             [("s".toList, 0)]⟩ : Document).add (.sec ⟨"s".toList, false, [], []⟩),
           some 1) ∧
    assocGet
      ((⟨[.sec ⟨"s".toList, false, [⟨"a".toList, "1".toList, false⟩],
           [("a".toList, 0)]⟩],
         [("s".toList, 0)]⟩ : Document).add
        (.sec ⟨"s".toList, false, [], []⟩)).sections ("s".toList) = some 1 :=
  C7_header_always_creates
    (⟨[.sec ⟨"s".toList, false, [⟨"a".toList, "1".toList, false⟩],
         [("a".toList, 0)]⟩], [("s".toList, 0)]⟩, some 0)
    2 ("[s]".toList) ("s".toList) (by decide)

/-- C8 counterexample: the stored comment text is not the original line
with its newline — `splitlines` strips the terminator before the parser
sees the line (line 246), and `_Comment.render` emits the stored text with
no newline appended (line 216) — so parsing `# c` followed by a newline
stores `# c` and renders `# c` without a terminator. -/
theorem C8_counterexample :
    parseConf ("# c\n".toList) = .ok ⟨[.comment ("# c".toList)], []⟩ ∧
    Document.stringify ⟨[.comment ("# c".toList)], []⟩ = "# c".toList ∧
    ("# c".toList : Str) ≠ "# c\n".toList := by
  refine ⟨by decide, by decide, by decide⟩

/-- C8 amended: a comment item stores the original untrimmed line text
without its line terminator (no line produced by `splitlines` contains one)
and rendering emits exactly that stored text, so a rendered comment line is
not newline-terminated. -/
theorem C8_comment_verbatim_no_newline (text l : Str)
    (hl : l ∈ splitlines text) :
    '\n' ∉ l ∧
    (∀ (st : PState) (n : Nat), startsComment (pyStrip l) = true →
      parseLine st n l = .ok (st.1.add (.comment l), st.2)) ∧
    (∀ indent : Str, DocItem.render (.comment l) indent = l) :=
  ⟨splitlines_no_newline text l hl,
   fun st n h => parseLine_comment_eq st n l h,
   fun _ => rfl⟩

/-- C8 witness: the comment line of `# c` followed by an option line. -/
theorem C8_comment_verbatim_no_newline_witness :
    '\n' ∉ ("# c".toList : Str) ∧
    parseLine (⟨[], []⟩, none) 0 ("# c".toList) =
      .ok ((⟨[], []⟩ : Document).add (.comment ("# c".toList)), none) ∧
    DocItem.render (.comment ("# c".toList)) defaultIndent = "# c".toList := by
  have h := C8_comment_verbatim_no_newline ("# c\na = 1\n".toList)
    ("# c".toList) (by decide)
  exact ⟨h.1, h.2.1 (⟨[], []⟩, none) 0 (by decide), h.2.2 defaultIndent⟩

/-- C9 counterexample: the parse error does not carry the raw line text —
`_ParseError.__init__` stores `line.rstrip()` (line 107) — so the invalid
option line `prop1␣` (trailing space, no `=`) is reported as `prop1`,
which differs from the raw line. -/
theorem C9_counterexample :
    parseConf ("prop1 ".toList) =
      .error ⟨"Invalid syntax".toList, "prop1".toList, 1⟩ ∧
    ("prop1".toList : Str) ≠ "prop1 ".toList := by
  refine ⟨by decide, by decide⟩

/-- C9 amended: a line failing the section-header grammar or the option
grammar aborts parsing with an error carrying the 1-based line number and
the line text with trailing whitespace stripped: `[[share1]` fails as an
invalid section header at line 1, `prop1` fails as an invalid option line
at line 1, and a failure on the second line is reported with line number
2. -/
theorem C9_parse_error_diagnostics :
    parseConf ("[[share1]".toList) =
      .error ⟨"Invalid share definition".toList, "[[share1]".toList, 1⟩ ∧
    parseConf ("prop1".toList) =
      .error ⟨"Invalid syntax".toList, "prop1".toList, 1⟩ ∧
    parseConf ("a = b\nprop1".toList) =
      .error ⟨"Invalid syntax".toList, "prop1".toList, 2⟩ := by
  refine ⟨by decide, by decide, by decide⟩

/-- C10 counterexample: trailing-newline insensitivity fails for the empty
text: the empty text parses to the empty document, while the single newline
parses to a document holding one `_Blank` (Python `"\n".splitlines()` is
`[""]`, one empty line), so the two parses are structurally different. -/
theorem C10_counterexample :
    parseConf ([] : Str) = .ok ⟨[], []⟩ ∧
    parseConf ("\n".toList) = .ok ⟨[.blank], []⟩ ∧
    (⟨[.blank], []⟩ : Document) ≠ (⟨[], []⟩ : Document) := by
  refine ⟨by decide, by decide, by decide⟩

/-- C10 amended: for every nonempty text whose final character is not one
of the `str.splitlines` line-terminator characters, appending one final
newline leaves the parse — document or error alike — unchanged, because
`splitlines` yields the same line list for both inputs.  Texts that already
end in a terminator are the exception: the final newline then adds one
blank line (the empty text versus the single newline is the smallest
instance, per the counterexample). -/
theorem C10_trailing_newline_insensitive (t : Str) (hne : t ≠ [])
    (hlast : ∀ b, t.getLast? = some b → isLineBreak b = false) :
    parseConf (t ++ ['\n']) = parseConf t := by
  unfold parseConf
  rw [splitlines_append_newline t hne hlast]

/-- C10 witness: `a = b` with and without the final newline parse
identically. -/
theorem C10_trailing_newline_insensitive_witness :
    parseConf ("a = b\n".toList) = parseConf ("a = b".toList) := by
  have h := C10_trailing_newline_insensitive ("a = b".toList) (by decide)
    (fun b hb => by
      have hg : ("a = b".toList : Str).getLast? = some 'b' := by decide
      rw [hg, Option.some.injEq] at hb
      subst hb
      decide)
  simpa using h
